import Mathlib

/-!
Verification development for the `simple-http-server` repository.

The Go sources (`main.go`, `request.go`, and the configuration file) are
shallowly embedded below.  Byte strings are modelled as Lean `String`s
(`[]byte` printed through `string(...)`), Go maps (`map[string][]string`)
are modelled as association lists that carry one concrete traversal order
(Go deliberately randomises map traversal order; where a fact depends on
that order the dependence is made explicit), and fallible operations
return `Except`/`Option`.  Every fmt.Println / fmt.Printf call of the
Presenter contributes one element to a `List String` of emitted records;
`log.*` calls go to the separate log stream and are not part of the
rendered report.
-/

/-- Model of Go `strings.HasPrefix` on character lists:
`strHasPrefixL p s` is true when `p` is an initial segment of `s`. -/
def strHasPrefixL : List Char → List Char → Bool
  | [], _ => true
  | _ :: _, [] => false
  | p :: ps, c :: cs => p == c && strHasPrefixL ps cs

/-- Auxiliary scan for `strContains`: does `sub` occur at some position of `s`?  -/
def strContainsL (s sub : List Char) : Bool :=
  match s with
  | [] => strHasPrefixL sub []
  | _ :: rest => strHasPrefixL sub s || strContainsL rest sub

/-- Model of Go `strings.Contains(s, sub)`. -/
def strContains (s sub : String) : Bool := strContainsL s.toList sub.toList

/-- Model of Go `strings.HasPrefix(s, p)`. -/
def strStartsWith (s p : String) : Bool := strHasPrefixL p.toList s.toList

/-- `isStringContentType` from `request.go` (the spec's ContentClassifier
`isTextLike`): text-like iff the content type starts with `text/`, contains
`json`, contains `xml`, or equals the URL-encoded-form media type
(`mimetype.ApplicationXWwwFormUrlencoded = "application/x-www-form-urlencoded"`). -/
def isStringContentType (contentType : String) : Bool :=
  if strStartsWith contentType "text/" then true
  else if strContains contentType "json" then true
  else if strContains contentType "xml" then true
  else if contentType = "application/x-www-form-urlencoded" then true
  else false

/-! ## Model of `encoding/json`'s `json.Valid`

A recursive-descent syntax checker for JSON values, written with an
explicit fuel argument (the fuel is always sufficient for inputs whose
nesting depth is at most their length, which holds for every JSON text).
It follows the JSON grammar that `encoding/json` checks: a single value,
surrounded by optional whitespace. -/

/-- Skip JSON whitespace (space, tab, newline, carriage return). -/
def jsonSkipWs (s : List Char) : List Char :=
  s.dropWhile (fun c => c == ' ' || c == '\t' || c == '\n' || c == '\r')

/-- Is the character a hexadecimal digit (and its value)? -/
def unhexDigit (c : Char) : Option Nat :=
  if '0' ≤ c ∧ c ≤ '9' then some (c.toNat - '0'.toNat)
  else if 'a' ≤ c ∧ c ≤ 'f' then some (c.toNat - 'a'.toNat + 10)
  else if 'A' ≤ c ∧ c ≤ 'F' then some (c.toNat - 'A'.toNat + 10)
  else none

/-- Parse the remainder of a JSON string literal (the opening quote has
already been consumed); returns the rest of the input on success. -/
def jsonParseStringRest : List Char → Option (List Char)
  | [] => none
  | '"' :: rest => some rest
  | '\\' :: 'u' :: a :: b :: c :: d :: rest =>
      if (unhexDigit a).isSome && (unhexDigit b).isSome
          && (unhexDigit c).isSome && (unhexDigit d).isSome then
        jsonParseStringRest rest
      else none
  | '\\' :: e :: rest =>
      if e == '"' || e == '\\' || e == '/' || e == 'b' || e == 'f'
          || e == 'n' || e == 'r' || e == 't' then
        jsonParseStringRest rest
      else none
  | c :: rest => if c.toNat < 32 then none else jsonParseStringRest rest

/-- Parse the integer part of a JSON number: `0` or a nonzero digit
followed by digits. -/
def jsonParseIntPart : List Char → Option (List Char)
  | '0' :: rest => some rest
  | c :: rest => if c.isDigit then some (rest.dropWhile Char.isDigit) else none
  | [] => none

/-- Parse a JSON number (`-?int frac? exp?`); returns the rest on success. -/
def jsonParseNumber (s : List Char) : Option (List Char) :=
  let s1 := match s with
    | '-' :: r => r
    | _ => s
  match jsonParseIntPart s1 with
  | none => none
  | some s2 =>
    let s3 : Option (List Char) := match s2 with
      | '.' :: c :: r => if c.isDigit then some ((c :: r).dropWhile Char.isDigit) else none
      | '.' :: [] => none
      | _ => some s2
    match s3 with
    | none => none
    | some s4 =>
      match s4 with
      | e :: r1 =>
        if e == 'e' || e == 'E' then
          let r2 := match r1 with
            | '+' :: r => r
            | '-' :: r => r
            | _ => r1
          match r2 with
          | c :: r => if c.isDigit then some ((c :: r).dropWhile Char.isDigit) else none
          | [] => none
        else some s4
      | [] => some []

mutual

/-- Parse one JSON value; fuel bounds the recursion depth. -/
def jsonParseValue : Nat → List Char → Option (List Char)
  | 0, _ => none
  | fuel + 1, s =>
    match jsonSkipWs s with
    | '{' :: rest => jsonParseObjectBody fuel (jsonSkipWs rest)
    | '[' :: rest => jsonParseArrayBody fuel (jsonSkipWs rest)
    | '"' :: rest => jsonParseStringRest rest
    | 't' :: 'r' :: 'u' :: 'e' :: rest => some rest
    | 'f' :: 'a' :: 'l' :: 's' :: 'e' :: rest => some rest
    | 'n' :: 'u' :: 'l' :: 'l' :: rest => some rest
    | rest => jsonParseNumber rest

/-- Parse an object body after `{` (whitespace already skipped). -/
def jsonParseObjectBody : Nat → List Char → Option (List Char)
  | 0, _ => none
  | fuel + 1, s =>
    match s with
    | '}' :: rest => some rest
    | _ => jsonParseMemberLoop fuel s

/-- Parse `"key" : value ( , "key" : value )* }`. -/
def jsonParseMemberLoop : Nat → List Char → Option (List Char)
  | 0, _ => none
  | fuel + 1, s =>
    match s with
    | '"' :: rest =>
      match jsonParseStringRest rest with
      | none => none
      | some afterKey =>
        match jsonSkipWs afterKey with
        | ':' :: afterColon =>
          match jsonParseValue fuel afterColon with
          | none => none
          | some afterVal =>
            match jsonSkipWs afterVal with
            | ',' :: next => jsonParseMemberLoop fuel (jsonSkipWs next)
            | '}' :: rest2 => some rest2
            | _ => none
        | _ => none
    | _ => none

/-- Parse an array body after `[` (whitespace already skipped). -/
def jsonParseArrayBody : Nat → List Char → Option (List Char)
  | 0, _ => none
  | fuel + 1, s =>
    match s with
    | ']' :: rest => some rest
    | _ => jsonParseElemLoop fuel s

/-- Parse `value ( , value )* ]`. -/
def jsonParseElemLoop : Nat → List Char → Option (List Char)
  | 0, _ => none
  | fuel + 1, s =>
    match jsonParseValue fuel s with
    | none => none
    | some afterVal =>
      match jsonSkipWs afterVal with
      | ',' :: next => jsonParseElemLoop fuel next
      | ']' :: rest => some rest
      | _ => none

end

/-- Model of `json.Valid`: the buffer is one JSON value with optional
surrounding whitespace.  The fuel `length + 8` dominates the nesting
depth of any syntactically valid input. -/
def jsonValid (s : String) : Bool :=
  match jsonParseValue (s.length + 8) s.toList with
  | some rest => (jsonSkipWs rest).isEmpty
  | none => false

/-! ## Data model -/

/-- The configuration (`Config` in the configuration source file): flag
values after CLI parsing. -/
structure Config where
  port : Int
  shouldFormatJson : Bool
  isHelpRequested : Bool
  maxFormBodySizeInMB : Int
deriving DecidableEq, Repr

/-- `basicAuth` from `request.go`. -/
structure BasicAuth where
  username : String
  password : String
  ok : Bool
deriving DecidableEq, Repr

/-- One file part of a multipart form (`*multipart.FileHeader`):
filename, byte size, and the part's own MIME header. -/
structure FilePart where
  filename : String
  size : Nat
  header : List (String × List String)
deriving DecidableEq, Repr

/-- `multipart.Form`: field values plus file parts, both keyed by field name. -/
structure MultipartForm where
  value : List (String × List String)
  file : List (String × List FilePart)
deriving DecidableEq, Repr

/-- `Request` from `request.go`: the immutable snapshot assembled once per
inbound request.  Go maps are carried as association lists in one concrete
traversal order. -/
structure Request where
  method : String
  path : String
  requestUri : String
  protocol : String
  host : String
  remoteAddress : String
  contentLength : Int
  contentType : String
  headers : List (String × List String)
  queryParams : List (String × List String)
  basicAuth : BasicAuth
  bodyIsString : Bool
  bodyParseError : Option String
  body : String
  bodyFormValues : Option (List (String × List String))
  bodyMultipartFormValues : Option MultipartForm
deriving DecidableEq, Repr

/-- The transport-level view of one inbound request, as `net/http` hands it
to `NewRequest`: request line fields, the header mapping (names already in
canonical MIME form, as the Go transport stores them), the query values of
`r.URL.Query()`, the outcome of `r.BasicAuth()` (`some (user, pass)` when
valid Basic credentials were supplied), and the body stream, modelled by
the outcome of draining it (`Except`: an I/O error or the full content). -/
structure GoHttpRequest where
  method : String
  urlPath : String
  requestURI : String
  proto : String
  host : String
  remoteAddr : String
  contentLength : Int
  headers : List (String × List String)
  urlQuery : List (String × List String)
  basicAuthHeader : Option (String × String)
  bodyContent : Except String String
deriving Repr

/-- Model of `http.Header.Get`: first value for the (canonical) key, or `""`. -/
def headerGet (headers : List (String × List String)) (key : String) : String :=
  match headers.lookup key with
  | some (v :: _) => v
  | _ => ""

/-! ## BodyDecoder: `readBodyAsBytes`, `url.ParseQuery`, `Request.ParseForm` -/

/-- `readBodyAsBytes` from `request.go`: on success the whole stream
content, on failure no buffer (`""`, Go `nil`) and the wrapped error.
Closing the stream is log-only and does not affect the result. -/
def readBodyAsBytes (stream : Except String String) : String × Option String :=
  match stream with
  | .ok b => (b, none)
  | .error e => ("", some ("error reading request body: " ++ e))

/-- The stream that remains after `readBodyAsBytes` drained it: reading
consumed everything, so a later reader sees empty content (or the same
I/O failure). -/
def consumedStream (stream : Except String String) : Except String String :=
  match stream with
  | .ok _ => .ok ""
  | .error e => .error e

/-- Cut a segment at the first `=` (Go `strings.Cut(seg, "=")`): the part
before it and the part after it (`""` when there is no `=`). -/
def cutOnEq : List Char → List Char × List Char
  | [] => ([], [])
  | '=' :: r => ([], r)
  | c :: r =>
    let p := cutOnEq r
    (c :: p.1, p.2)

/-- Model of `url.QueryUnescape`: `+` becomes space, `%XY` becomes the
byte `0xXY`; a malformed escape is an error. -/
def queryUnescapeL : List Char → Option (List Char)
  | [] => some []
  | '%' :: a :: b :: rest =>
    match unhexDigit a, unhexDigit b with
    | some x, some y => (queryUnescapeL rest).map (fun l => Char.ofNat (16 * x + y) :: l)
    | _, _ => none
  | '%' :: _ => none
  | '+' :: rest => (queryUnescapeL rest).map (fun l => ' ' :: l)
  | c :: rest => (queryUnescapeL rest).map (fun l => c :: l)

/-- Append one value to a key of a string-slice map (Go
`m[key] = append(m[key], value)` on `url.Values`). -/
def addValue (m : List (String × List String)) (k v : String) :
    List (String × List String) :=
  if (m.lookup k).isSome then
    m.map (fun kv => if kv.1 = k then (kv.1, kv.2 ++ [v]) else kv)
  else m ++ [(k, [v])]

/-- Append a whole value slice to a key (one step of Go's `copyValues`). -/
def addValues (m : List (String × List String)) (k : String) (vs : List String) :
    List (String × List String) :=
  if (m.lookup k).isSome then
    m.map (fun kv => if kv.1 = k then (kv.1, kv.2 ++ vs) else kv)
  else m ++ [(k, vs)]

/-- Split a character list on `&`. -/
def splitOnAmp (s : List Char) : List (List Char) :=
  match s with
  | [] => [[]]
  | '&' :: rest => [] :: splitOnAmp rest
  | c :: rest =>
    match splitOnAmp rest with
    | seg :: segs => (c :: seg) :: segs
    | [] => [[c]]

/-- Loop of `url.ParseQuery`: for each `&`-separated segment, reject a
semicolon, skip an empty segment, cut at the first `=`, unescape key and
value, and append.  `url.ParseQuery` records the first error but keeps
parsing; at the one call site (`Request.ParseForm` under `NewRequest`)
any error makes the caller drop the mapping, so an error short-circuits
here — the observable outcome at that call site is identical. -/
def parseQueryLoop : List (List Char) → List (String × List String) →
    Except String (List (String × List String))
  | [], acc => .ok acc
  | seg :: rest, acc =>
    if strContainsL seg ";".toList then .error "invalid semicolon separator in query"
    else if seg.isEmpty then parseQueryLoop rest acc
    else
      let p := cutOnEq seg
      match queryUnescapeL p.1, queryUnescapeL p.2 with
      | some k, some v => parseQueryLoop rest (addValue acc (String.mk k) (String.mk v))
      | _, _ => .error "invalid URL escape"

/-- Model of `url.ParseQuery`. -/
def parseQuery (s : String) : Except String (List (String × List String)) :=
  parseQueryLoop (splitOnAmp s.toList) []

/-- Model of Go's `copyValues(dst, src)`: append every value slice of
`src` to `dst`. -/
def mergeValues (dst src : List (String × List String)) :
    List (String × List String) :=
  src.foldl (fun acc kv => addValues acc kv.1 kv.2) dst

/-- Model of `http.Request.ParseForm` as invoked by `NewRequest` in the
`application/x-www-form-urlencoded` case: the request body (what remains
of the stream at that point) is parsed as a query string when the method
is POST, PUT or PATCH, and `r.Form` merges those body values with the
values parsed from the URL query.  On a body-read or parse failure the
error is returned (the call site then leaves the mapping unset). -/
def parseFormGo (method : String) (remaining : Except String String)
    (urlQuery : List (String × List String)) :
    Except String (List (String × List String)) :=
  match remaining with
  | .error e => .error e
  | .ok bodyStr =>
    let postFormRes :=
      if method = "POST" ∨ method = "PUT" ∨ method = "PATCH" then parseQuery bodyStr
      else .ok []
    match postFormRes with
    | .error e => .error e
    | .ok postForm => .ok (mergeValues postForm urlQuery)

/-- `NewRequest` from `request.go`.  Notes on the embedding:

* the body stream is drained by `readBodyAsBytes` only when the content
  type is text-like; `Request.ParseForm`, called afterwards in the
  url-encoded case, therefore reads an already-consumed stream
  (`consumedStream`);
* the `multipart/form-data` switch case matches the `Content-Type` header
  only when it is exactly the bare media type, which cannot carry the
  `boundary` parameter; `http.Request.ParseMultipartForm` then always
  fails with `http: no multipart boundary param in Content-Type` and
  leaves `r.MultipartForm` nil, so the snapshot's multipart field is
  modelled as the wrapped error and no form;
* the Go function's own error result is the literal `nil` of its single
  `return` statement. -/
def NewRequest (cfg : Config) (r : GoHttpRequest) : Request × Option String :=
  let method := if r.method = "" then "GET" else r.method
  let auth : BasicAuth :=
    match r.basicAuthHeader with
    | some (u, p) => ⟨u, p, true⟩
    | none => ⟨"", "", false⟩
  let contentType := headerGet r.headers "Content-Type"
  let bodyIsString := isStringContentType contentType
  let bodyRead := if bodyIsString then readBodyAsBytes r.bodyContent else ("", none)
  let remaining := if bodyIsString then consumedStream r.bodyContent else r.bodyContent
  let switchRes : Option (List (String × List String)) × Option String :=
    if contentType = "application/x-www-form-urlencoded" then
      match parseFormGo method remaining r.urlQuery with
      | .ok form => (some form, none)
      | .error e => (none, some ("error parsing form values: " ++ e))
    else if contentType = "multipart/form-data" then
      (none, some ("error parsing multipart form values: "
        ++ "no multipart boundary param in Content-Type"))
    else (none, bodyRead.2)
  ({ method := method
     path := r.urlPath
     requestUri := r.requestURI
     protocol := r.proto
     host := r.host
     remoteAddress := r.remoteAddr
     contentLength := r.contentLength
     contentType := contentType
     headers := r.headers
     queryParams := r.urlQuery
     basicAuth := auth
     bodyIsString := bodyIsString
     bodyParseError := switchRes.2
     body := bodyRead.1
     bodyFormValues := switchRes.1
     bodyMultipartFormValues := none }, none)

/-- The HTTP status written by the handler in `runHttpServer` (`main.go`):
500 is written first when `NewRequest` reports an error, otherwise the
unconditional `WriteHeader(http.StatusAccepted)` takes effect (the first
`WriteHeader` call wins). -/
def handleStatus (cfg : Config) (r : GoHttpRequest) : Nat :=
  match (NewRequest cfg r).2 with
  | some _ => 500
  | none => 202

/-! ## Presenter

Each `fmt.Println` / `fmt.Printf` call contributes one element (one
`\n`-terminated record, without the terminating newline) to the rendered
report.  The `log.Println(method, path, protocol)` summary goes to the
log stream, not to the report. -/

/-- `printStrSliceMap` from `request.go`: one line per (key, value) pair,
in the traversal order the association list carries. -/
def printStrSliceMapLines (m : List (String × List String)) : List String :=
  (m.map (fun kv => kv.2.map (fun v => "\t" ++ kv.1 ++ ": " ++ v))).flatten

/-- `printStrMap` from `request.go` on the auth map built by `printAuth`
(`type`, `username`, `password`), in insertion order (one traversal order
of the Go map). -/
def printStrMapLines (m : List (String × String)) : List String :=
  m.map (fun kv => "\t" ++ kv.1 ++ ": " ++ kv.2)

/-- `Request.printAuth`. -/
def printAuthLines (r : Request) : List String :=
  if r.basicAuth.ok then
    "Authorization:" :: printStrMapLines
      [("type", "Basic"), ("username", r.basicAuth.username),
        ("password", r.basicAuth.password)]
  else []

/-- `Request.printHeaders`, factored over the header mapping. -/
def printHeadersLines (headers : List (String × List String)) : List String :=
  if headers.length > 0 then "Headers:" :: printStrSliceMapLines headers else []

/-- `Request.printQueryParams`, factored over the query mapping. -/
def printQueryParamsLines (queryParams : List (String × List String)) : List String :=
  if queryParams.length > 0 then "Query params:" :: printStrSliceMapLines queryParams else []

/-- Two-decimal rendering of `centi / 100`. -/
def formatTwoDecimals (centi : Nat) : String :=
  toString (centi / 100) ++ "."
    ++ (if centi % 100 < 10 then "0" ++ toString (centi % 100) else toString (centi % 100))

/-- Round `num / den` to the nearest integer, ties to even (the rounding
of Go's `%.2f` on exactly representable values). -/
def roundNearestEven (num den : Nat) : Nat :=
  let q := num / den
  let r := num % den
  if 2 * r < den then q
  else if den < 2 * r then q + 1
  else if q % 2 = 0 then q else q + 1

/-- `%.2f` applied to `float64(size)/1024/1024` (size in MB, two decimal
places).  Binary-float64 artifacts of `%.2f` are not modelled; on byte
sizes whose MB value has an exact two-decimal form (such as 3145728 →
3.00) the two agree. -/
def formatMB (size : Nat) : String :=
  formatTwoDecimals (roundNearestEven (size * 100) (1024 * 1024))

/-- Go `fmt`'s `%s` rendering of a `[]string` value: `[v1 v2 ...]`. -/
def goSliceString (vs : List String) : String :=
  "[" ++ String.intercalate " " vs ++ "]"

/-- The file-part lines of `printBody`'s multipart branch: per field name a
`\tname:` line, then per part a `\t\tfilename (X.XX MB)` line and, when the
part has headers, a `\t\tHeaders:` line followed by one line per header
value slice. -/
def multipartFileLines (file : List (String × List FilePart)) : List String :=
  (file.map (fun kv =>
    ("\t" ++ kv.1 ++ ":") ::
      (kv.2.map (fun v =>
        ("\t\t" ++ v.filename ++ " (" ++ formatMB v.size ++ " MB)") ::
          (if v.header.length ≠ 0 then
            "\t\tHeaders:" :: v.header.map (fun hkv => "\t\t\t" ++ goSliceString hkv.2)
          else []))).flatten)).flatten

/-- Model of `printJsonIndented`'s outcome on an already-`json.Valid`
buffer: the indent step is modelled as succeeding (its own `json.Valid`
pre-check passes) and its printed text is abstracted as the buffer itself —
no claim depends on the exact indented bytes, only on which branch runs. -/
def jsonIndent (b : String) : Except String String :=
  if jsonValid b then .ok b else .error "invalid json"

/-- The `r.BodyIsString` branch of `printBody` (the text-like rendering):
JSON content types split on validity and on the `shouldFormatJson` flag;
other text-like content prints `Body:` and the raw bytes. -/
def stringBodyLines (cfg : Config) (r : Request) : List String :=
  if strContains r.contentType "json" then
    if jsonValid r.body then
      "Body (valid json):" ::
        (if cfg.shouldFormatJson then
          match jsonIndent r.body with
          | .ok s => [s]
          | .error _ => [r.body]
        else [])
    else ["Body (invalid json):", r.body]
  else ["Body:", r.body]

/-- `Request.printBody` from `request.go`: early return on an empty raw
buffer; then the text-like branch, the form-value branch, the multipart
branch and the unknown fallback, in that order (the source's misspelling
`lenght` is kept). -/
def printBodyLines (cfg : Config) (r : Request) : List String :=
  if r.body.length = 0 then []
  else if r.bodyIsString then stringBodyLines cfg r
  else
    match r.bodyFormValues with
    | some fv => "Body (Form values):" :: printStrSliceMapLines fv
    | none =>
      match r.bodyMultipartFormValues with
      | some mp =>
        ("Body (Multipart form values):" :: printStrSliceMapLines mp.value)
          ++ multipartFileLines mp.file
      | none => ["Body (unknown): lenght " ++ toString r.body.length ++ " bytes"]

/-- The conditional `Request URI:` record of `Request.Print`. -/
def requestUriLines (r : Request) : List String :=
  if r.path ≠ r.requestUri then ["Request URI: " ++ r.requestUri] else []

/-- Everything `Request.Print` emits after the conditional `Request URI:`
record: host, remote address, auth, headers, query params, body, and the
25-hyphen delimiter. -/
def printRestLines (cfg : Config) (r : Request) : List String :=
  ["Host: " ++ r.host, "Remote Address: " ++ r.remoteAddress]
    ++ printAuthLines r
    ++ printHeadersLines r.headers
    ++ printQueryParamsLines r.queryParams
    ++ printBodyLines cfg r
    ++ ["-------------------------"]

/-- `Request.Print`: the full rendered report (console records in order). -/
def printLines (cfg : Config) (r : Request) : List String :=
  requestUriLines r ++ printRestLines cfg r

/-! ## Configuration validation (`isPortInValidRange`, `Config.Validate`) -/

/-- `portMinValue` from the configuration source. -/
def portMinValue : Int := 1024

/-- `portMaxValue` from the configuration source. -/
def portMaxValue : Int := 65535

/-- `isPortInValidRange` from the configuration source: strictly between
the bounds. -/
def isPortInValidRange (port min max : Int) : Bool :=
  port > min && port < max

/-- `Config.Validate`: the range check with its error message, then the
availability check (`isPortAvailable` probes the network listener and is
passed in as the probe's outcome).  The availability message is the
source's "can not listen" wording with its contraction spelled out; no
claim concerns that message's text. -/
def validateConfig (c : Config) (portAvailable : Bool) : Option String :=
  if !(isPortInValidRange c.port portMinValue portMaxValue) then
    some ("expecting port to be in the range between " ++ toString portMinValue
      ++ " and " ++ toString portMaxValue)
  else if !portAvailable then
    some ("can not listen on " ++ toString c.port ++ ", port already in use")
  else none

/-! ## Concrete fixtures -/

/-- The flag defaults of `NewConfig`: port 3000, `--format-json` true,
`--form-data-size` 10. -/
def cfgDefault : Config :=
  { port := 3000, shouldFormatJson := true, isHelpRequested := false,
    maxFormBodySizeInMB := 10 }

/-- A POST of the URL-encoded body `a=1&a=2&b=x` with no query string. -/
def reqFormC3 : GoHttpRequest :=
  { method := "POST", urlPath := "/submit", requestURI := "/submit",
    proto := "HTTP/1.1", host := "localhost:3000", remoteAddr := "127.0.0.1:50000",
    contentLength := 11,
    headers := [("Content-Type", ["application/x-www-form-urlencoded"])],
    urlQuery := [], basicAuthHeader := none,
    bodyContent := .ok "a=1&a=2&b=x" }

/-- C1: for every inbound request the handler writes HTTP status 202;
`NewRequest` never returns an error (its only `return` passes `nil`), so
the 500 branch of the handler is unreachable and no decode outcome is
reflected in the response status. -/
theorem handler_always_accepts :
    ∀ (cfg : Config) (r : GoHttpRequest),
      (NewRequest cfg r).2 = none ∧ handleStatus cfg r = 202 :=
  fun _ _ => ⟨rfl, rfl⟩

/-- C6: `isStringContentType` (the spec's `isTextLike`) returns true
exactly for content types that start with `text/`, contain `json`,
contain `xml`, or equal `application/x-www-form-urlencoded`; it is a pure
function of the string. -/
theorem isStringContentType_spec :
    ∀ ct : String,
      isStringContentType ct = true ↔
        (strStartsWith ct "text/" = true ∨ strContains ct "json" = true
          ∨ strContains ct "xml" = true ∨ ct = "application/x-www-form-urlencoded") := by
  intro ct
  unfold isStringContentType
  repeat' split
  all_goals simp_all

/-- C10: `isPortInValidRange` accepts a port only when it is strictly
between 1024 and 65535, so the boundary values 1024 and 65535 are
rejected, even though `Config.Validate`'s error message names exactly the
range between those two numbers. -/
theorem port_range_strict :
    ∀ (c : Config) (avail : Bool),
      (isPortInValidRange c.port portMinValue portMaxValue = true ↔
        (1024 < c.port ∧ c.port < 65535))
      ∧ ((c.port = 1024 ∨ c.port = 65535) →
          validateConfig c avail =
            some ("expecting port to be in the range between " ++ toString portMinValue
              ++ " and " ++ toString portMaxValue))
      ∧ (validateConfig c avail = none → 1024 < c.port ∧ c.port < 65535) := by
  intro c avail
  refine ⟨?_, ?_, ?_⟩
  · simp [isPortInValidRange, portMinValue, portMaxValue]
  · intro h
    rcases h with h | h <;>
      simp [validateConfig, isPortInValidRange, portMinValue, portMaxValue, h]
  · intro h
    unfold validateConfig at h
    split at h
    · exact absurd h (by simp)
    · rename_i hrange
      have : isPortInValidRange c.port portMinValue portMaxValue = true := by
        revert hrange
        cases isPortInValidRange c.port portMinValue portMaxValue <;> simp
      revert this
      simp [isPortInValidRange, portMinValue, portMaxValue]

/-- A configuration whose port sits on the lower boundary value. -/
def cfgPort1024 : Config :=
  { port := 1024, shouldFormatJson := true, isHelpRequested := false,
    maxFormBodySizeInMB := 10 }

/-- C10 witness: the boundary port 1024 is rejected with the
between-1024-and-65535 message. -/
theorem port_range_strict_witness :
    validateConfig cfgPort1024 true =
      some ("expecting port to be in the range between " ++ toString portMinValue
        ++ " and " ++ toString portMaxValue) :=
  (port_range_strict cfgPort1024 true).2.1 (Or.inl rfl)

/-! ### C2: body-representation branches -/

/-- C3: evaluating the pipeline at the claim's input.  The body stream is
drained by the text-like read before `ParseForm` runs, so the form-value
mapping ends up empty (`some []`, not `a -> [1,2], b -> [x]`), and because
`printBody` tests `BodyIsString` before `BodyFormValues`, the report
prints `Body:` with the raw text instead of the `Body (Form values):`
lines the claim describes. -/
theorem form_values_lost_eval :
    (NewRequest cfgDefault reqFormC3).1.bodyFormValues = some []
    ∧ printLines cfgDefault (NewRequest cfgDefault reqFormC3).1 =
        ["Host: localhost:3000", "Remote Address: 127.0.0.1:50000", "Headers:",
          "\tContent-Type: application/x-www-form-urlencoded", "Body:", "a=1&a=2&b=x",
          "-------------------------"]
    ∧ "Body (Form values):" ∉ printLines cfgDefault (NewRequest cfgDefault reqFormC3).1
    ∧ "\ta: 1" ∉ printLines cfgDefault (NewRequest cfgDefault reqFormC3).1 := by decide

/-! ### C4: the multipart branch is unreachable -/

/-- A multipart POST as a client sends it: the `Content-Type` carries the
boundary parameter.  The body payload (one field `name=foo`, one file part
`upload` of 3,145,728 bytes) is never read by `NewRequest` — the content
type is not text-like — so a short stand-in for the 3 MB stream suffices;
no computed value depends on it. -/
def reqMultipart : GoHttpRequest :=
  { method := "POST", urlPath := "/upload", requestURI := "/upload",
    proto := "HTTP/1.1", host := "localhost:3000", remoteAddr := "127.0.0.1:50003",
    contentLength := 3146000,
    headers := [("Content-Type", ["multipart/form-data; boundary=b1"])],
    urlQuery := [], basicAuthHeader := none,
    bodyContent := .ok "--b1 (stand-in for the multipart payload: field name=foo; file part upload, 3145728 bytes) --b1--" }

/-- The same POST with a bare `multipart/form-data` content type (no
boundary parameter), the only form the `switch` in `NewRequest` matches. -/
def reqMultipartBare : GoHttpRequest :=
  { method := "POST", urlPath := "/upload", requestURI := "/upload",
    proto := "HTTP/1.1", host := "localhost:3000", remoteAddr := "127.0.0.1:50003",
    contentLength := 3146000,
    headers := [("Content-Type", ["multipart/form-data"])],
    urlQuery := [], basicAuthHeader := none,
    bodyContent := .ok "--b1 (stand-in for the multipart payload) --b1--" }

/-- C4: evaluating the pipeline at the claim's input.  With the boundary
parameter the `switch` matches no case and nothing is parsed; with the
bare media type `ParseMultipartForm` fails for want of a boundary.  Either
way the snapshot's multipart form is nil and its raw buffer is empty, so
`printBody` returns at its empty-buffer guard: the report contains no body
lines at all — in particular not the field line or the
`upload... (3.00 MB)` line the claim expects (`formatMB` would indeed
render 3,145,728 bytes as `3.00`, but the branch is unreachable). -/
theorem multipart_never_rendered_eval :
    (NewRequest cfgDefault reqMultipart).1.body = ""
    ∧ (NewRequest cfgDefault reqMultipart).1.bodyMultipartFormValues = none
    ∧ printBodyLines cfgDefault (NewRequest cfgDefault reqMultipart).1 = []
    ∧ printLines cfgDefault (NewRequest cfgDefault reqMultipart).1 =
        ["Host: localhost:3000", "Remote Address: 127.0.0.1:50003", "Headers:",
          "\tContent-Type: multipart/form-data; boundary=b1", "-------------------------"]
    ∧ (NewRequest cfgDefault reqMultipartBare).1.bodyParseError =
        some "error parsing multipart form values: no multipart boundary param in Content-Type"
    ∧ (NewRequest cfgDefault reqMultipartBare).1.bodyMultipartFormValues = none
    ∧ printBodyLines cfgDefault (NewRequest cfgDefault reqMultipartBare).1 = []
    ∧ formatMB 3145728 = "3.00" := by decide

/-! ### C5: branch order in `printBody` -/

/-- A snapshot carrying both a raw text buffer (with `bodyIsString`) and a
populated form-value mapping — the shape `NewRequest` produces for a
url-encoded request. -/
def snapBothBranches : Request :=
  { method := "POST", path := "/", requestUri := "/", protocol := "HTTP/1.1",
    host := "h", remoteAddress := "ra", contentLength := 3,
    contentType := "application/x-www-form-urlencoded",
    headers := [], queryParams := [],
    basicAuth := ⟨"", "", false⟩, bodyIsString := true, bodyParseError := none,
    body := "a=1", bodyFormValues := some [("a", ["1"])],
    bodyMultipartFormValues := none }

/-- C5 counterexample: on a snapshot with both a raw text buffer and a
populated form-value mapping, `printBody` produces the raw-string output
(`Body:` with the bytes), not the form-values output — the `BodyIsString`
test comes first in the source, contrary to the claim. -/
theorem form_branch_first_counterexample :
    printBodyLines cfgDefault snapBothBranches = ["Body:", "a=1"]
    ∧ "Body (Form values):" ∉ printBodyLines cfgDefault snapBothBranches := by decide

/-- C5 as amended: in `printBody` the raw-string (text-like) branch is
checked ahead of the form-value branch, so for a snapshot with a
non-empty buffer and `bodyIsString` set the text-like rendering is the
one produced, whatever the form mapping holds; its header is never the
form-values header. -/
theorem raw_branch_precedes_form :
    ∀ (cfg : Config) (r : Request),
      r.body.length ≠ 0 → r.bodyIsString = true →
      printBodyLines cfg r = stringBodyLines cfg r
      ∧ (printBodyLines cfg r).head? ≠ some "Body (Form values):" := by
  intro cfg r h1 h2
  have he : printBodyLines cfg r = stringBodyLines cfg r := by
    simp [printBodyLines, h1, h2]
  refine ⟨he, ?_⟩
  rw [he]
  unfold stringBodyLines
  split <;> (try split) <;> simp

/-- C5 witness: the amended statement applied to the two-branch snapshot. -/
theorem raw_branch_precedes_form_witness :
    printBodyLines cfgDefault snapBothBranches = stringBodyLines cfgDefault snapBothBranches
    ∧ (printBodyLines cfgDefault snapBothBranches).head? ≠ some "Body (Form values):" :=
  raw_branch_precedes_form cfgDefault snapBothBranches (by decide) rfl

/-! ### C7: the conditional `Request URI:` record -/

/-- C7: the report contains the `Request URI:` record exactly when the raw
request target differs from the decoded path (given that no other emitted
record happens to spell that same text, which the hypothesis excludes). -/
theorem request_uri_line_iff :
    ∀ (cfg : Config) (r : Request),
      ("Request URI: " ++ r.requestUri) ∉ printRestLines cfg r →
      ((("Request URI: " ++ r.requestUri) ∈ printLines cfg r) ↔ r.path ≠ r.requestUri) := by
  intro cfg r h
  unfold printLines requestUriLines
  by_cases hp : r.path = r.requestUri
  · simp [hp, h]
  · simp [hp]

/-- A GET whose raw target `/a?q=1` differs from its decoded path `/a`. -/
def snapQueryTarget : Request :=
  { method := "GET", path := "/a", requestUri := "/a?q=1", protocol := "HTTP/1.1",
    host := "h", remoteAddress := "ra", contentLength := 0, contentType := "",
    headers := [], queryParams := [("q", ["1"])],
    basicAuth := ⟨"", "", false⟩, bodyIsString := false, bodyParseError := none,
    body := "", bodyFormValues := none, bodyMultipartFormValues := none }

/-- C7 witness: for the query-target snapshot the record is present
exactly because path and target differ. -/
theorem request_uri_line_iff_witness :
    (("Request URI: " ++ snapQueryTarget.requestUri) ∈ printLines cfgDefault snapQueryTarget)
      ↔ snapQueryTarget.path ≠ snapQueryTarget.requestUri :=
  request_uri_line_iff cfgDefault snapQueryTarget (by decide)

/-! ### C8: rendering and map traversal order -/

/-- A snapshot whose header map has two keys, in one traversal order. -/
def snapTwoHeaders : Request :=
  { method := "GET", path := "/", requestUri := "/", protocol := "HTTP/1.1",
    host := "h", remoteAddress := "ra", contentLength := 0, contentType := "",
    headers := [("Accept", ["1"]), ("From", ["2"])], queryParams := [],
    basicAuth := ⟨"", "", false⟩, bodyIsString := false, bodyParseError := none,
    body := "", bodyFormValues := none, bodyMultipartFormValues := none }

/-- The same snapshot under the other traversal order of its header map
(Go randomises map range order per iteration, so two invocations of
`Print` on one `Request` value may traverse the same map both ways). -/
def snapTwoHeadersSwapped : Request :=
  { snapTwoHeaders with headers := [("From", ["2"]), ("Accept", ["1"])] }

/-- C8 counterexample: the two renderings of the same header map (same
pairs, the two traversal orders) are not byte-identical — the header lines
come out in different orders — so output bytes are not a function of the
snapshot's map contents alone. -/
theorem render_order_dependent_counterexample :
    List.Perm snapTwoHeaders.headers snapTwoHeadersSwapped.headers
    ∧ snapTwoHeadersSwapped = { snapTwoHeaders with headers := snapTwoHeadersSwapped.headers }
    ∧ printLines cfgDefault snapTwoHeaders ≠ printLines cfgDefault snapTwoHeadersSwapped := by
  decide

/-- A permutation of a list of blocks permutes their concatenation. -/
theorem perm_flatten {β : Type} {l₁ l₂ : List (List β)}
    (h : List.Perm l₁ l₂) : List.Perm l₁.flatten l₂.flatten := by
  induction h with
  | nil => exact List.Perm.refl _
  | cons x _ ih => exact ih.append_left _
  | swap x y l =>
      simp only [List.flatten]
      rw [← List.append_assoc, ← List.append_assoc]
      exact List.perm_append_comm.append_right _
  | trans _ _ ih₁ ih₂ => exact ih₁.trans ih₂

/-- A permutation of the outer list permutes the concatenation of the
mapped blocks. -/
theorem perm_flatten_map {α β : Type} (f : α → List β) {l₁ l₂ : List α}
    (h : List.Perm l₁ l₂) : List.Perm (l₁.map f).flatten (l₂.map f).flatten :=
  perm_flatten (h.map f)

/-- Permuting the traversal order of a string-slice map permutes its
per-pair lines. -/
theorem printStrSliceMapLines_perm {m₁ m₂ : List (String × List String)}
    (h : List.Perm m₁ m₂) :
    List.Perm (printStrSliceMapLines m₁) (printStrSliceMapLines m₂) := by
  unfold printStrSliceMapLines
  exact perm_flatten_map _ h

/-- Permuting the header map's traversal order permutes the header block. -/
theorem printHeadersLines_perm {m₁ m₂ : List (String × List String)}
    (h : List.Perm m₁ m₂) :
    List.Perm (printHeadersLines m₁) (printHeadersLines m₂) := by
  unfold printHeadersLines
  by_cases hc : m₁.length > 0
  · rw [if_pos hc, if_pos (h.length_eq ▸ hc)]
    exact (printStrSliceMapLines_perm h).cons _
  · rw [if_neg hc, if_neg (h.length_eq ▸ hc)]

/-- C8 as amended: rendering is a pure, deterministic function of the
snapshot value together with its map traversal orders; the traversal
order of the header map only permutes the rendered records (the emitted
lines are the same up to the order the map happens to be ranged in, and
byte-identical output is guaranteed only for one fixed traversal order,
not across invocations). -/
theorem render_perm_of_header_perm :
    ∀ (cfg : Config) (r : Request) (h2 : List (String × List String)),
      List.Perm r.headers h2 →
      List.Perm (printLines cfg r) (printLines cfg { r with headers := h2 }) := by
  intro cfg r h2 hp
  unfold printLines printRestLines
  exact List.Perm.append (List.Perm.refl _)
    (List.Perm.append
      (List.Perm.append
        (List.Perm.append
          (List.Perm.append (List.Perm.refl _) (printHeadersLines_perm hp))
          (List.Perm.refl _))
        (List.Perm.refl _))
      (List.Perm.refl _))

/-- C8 witness: the amended statement at the two-header snapshot. -/
theorem render_perm_of_header_perm_witness :
    List.Perm (printLines cfgDefault snapTwoHeaders)
      (printLines cfgDefault { snapTwoHeaders with headers := [("From", ["2"]), ("Accept", ["1"])] }) :=
  render_perm_of_header_perm cfgDefault snapTwoHeaders
    [("From", ["2"]), ("Accept", ["1"])] (by decide)

/-! ### C9: valid JSON with formatting disabled -/

/-- C9: when the JSON-formatting flag is off, a non-empty `json.Valid`
body under a json content type yields exactly the `Body (valid json):`
header and no body content (neither pretty-printed nor raw). -/
theorem json_header_without_body :
    ∀ (cfg : Config) (r : Request),
      cfg.shouldFormatJson = false → r.body.length ≠ 0 → r.bodyIsString = true →
      strContains r.contentType "json" = true → jsonValid r.body = true →
      printBodyLines cfg r = ["Body (valid json):"] := by
  intro cfg r hf h1 h2 hj hv
  simp [printBodyLines, stringBodyLines, h1, h2, hj, hv, hf]

/-- The default configuration with `--format-json=false`. -/
def cfgNoFormat : Config :=
  { port := 3000, shouldFormatJson := false, isHelpRequested := false,
    maxFormBodySizeInMB := 10 }

/-- A snapshot of a request with a small valid JSON body. -/
def snapJson : Request :=
  { method := "POST", path := "/", requestUri := "/", protocol := "HTTP/1.1",
    host := "h", remoteAddress := "ra", contentLength := 2,
    contentType := "application/json",
    headers := [("Content-Type", ["application/json"])], queryParams := [],
    basicAuth := ⟨"", "", false⟩, bodyIsString := true, bodyParseError := none,
    body := "{}", bodyFormValues := none, bodyMultipartFormValues := none }

/-- C9 witness: the json snapshot under the formatting-off configuration. -/
theorem json_header_without_body_witness :
    printBodyLines cfgNoFormat snapJson = ["Body (valid json):"] :=
  json_header_without_body cfgNoFormat snapJson rfl (by decide) rfl (by decide) (by decide)
